import Mathlib

/-!
Verification development for the Google-Maps scraping script (`src/main.py`).

Strings are modelled as `List Char`; Python `None`-able values as `Option`;
Python exceptions as `Except PyError`.  Python `float` values are modelled as
exact rationals (`ℚ`): every numeric literal the program manipulates is a
short decimal string, where decimal and binary-float semantics agree at the
level of the properties stated here.  The external Playwright page session is
modelled as a snapshot environment: each discovered listing handle carries the
responses the page would give to the queries the script performs on it.
-/

/-- The Python exceptions that the scraping code can raise (all of them are
caught by the generic per-item `except Exception` handler). -/
inductive PyError where
  | valueError
  | indexError
  | typeError
  | attributeError
deriving DecidableEq, Repr

deriving instance DecidableEq for Except

/-- Whitespace characters recognised by Python `str.split()` / `str.strip()`
(ASCII subset; the program only ever manipulates ASCII page text). -/
def isPySpace (c : Char) : Bool :=
  c = ' ' || c = '\t' || c = '\n' || c = '\r' || c = '\x0b' || c = '\x0c'

/-- Python `str.strip()`: drop leading and trailing whitespace. -/
def pyStrip (s : List Char) : List Char :=
  ((s.dropWhile isPySpace).reverse.dropWhile isPySpace).reverse

/-- Python `str.replace(old, new)` for a one-character `old`: every occurrence
of `old` is replaced by the string `new`. -/
def pyReplaceChar (s : List Char) (old : Char) (new : List Char) : List Char :=
  s.foldr (fun c acc => if c = old then new ++ acc else c :: acc) []

/-- One step of `pySplitWs`, consuming one character from the right: the
`Bool` records whether the head word is adjacent to the current position. -/
def pySplitWsAux (c : Char) (st : List (List Char) × Bool) : List (List Char) × Bool :=
  if isPySpace c then (st.1, false)
  else
    match st with
    | (w :: ws, true) => ((c :: w) :: ws, true)
    | (ws, _) => ([c] :: ws, true)

/-- Python `str.split()` with no argument: split on runs of whitespace,
discarding empty pieces. -/
def pySplitWs (s : List Char) : List (List Char) :=
  (s.foldr pySplitWsAux ([], false)).1

/-- Python `str.split(sep)` for a one-character separator `sep`
(keeps empty pieces, result is always non-empty). -/
def splitOnChar (sep : Char) : List Char → List (List Char)
  | [] => [[]]
  | c :: rest =>
    let r := splitOnChar sep rest
    if c = sep then [] :: r
    else (c :: r.headI) :: r.tail

/-- Python `str.split("/@")`: split on the two-character marker `/@`,
scanning left to right, non-overlapping (keeps empty pieces). -/
def splitOnMarker : List Char → List (List Char)
  | [] => [[]]
  | [c] => [[c]]
  | c₁ :: c₂ :: rest =>
    if c₁ = '/' ∧ c₂ = '@' then [] :: splitOnMarker rest
    else
      let r := splitOnMarker (c₂ :: rest)
      (c₁ :: r.headI) :: r.tail

/-- Whether the two-character marker `/@` occurs somewhere in the string. -/
def containsMarker : List Char → Bool
  | [] => false
  | c :: rest =>
    (match rest with
     | r₀ :: _ => decide (c = '/' ∧ r₀ = '@')
     | [] => false) || containsMarker rest

/-- Numeric value of a list of decimal digit characters, most significant
first (the empty list gives `0`). -/
def natOfDigits (l : List Char) : Nat :=
  l.foldl (fun a c => 10 * a + (c.toNat - 48)) 0

/-- Python `float(s)` on a string, as an exact rational: optional surrounding
whitespace, optional sign, a mantissa `digits[.digits]` containing at least
one digit, and an optional `e`/`E` exponent.  `inf`/`nan` spellings and PEP
515 digit underscores are not modelled (the program never meets them).
Returns `none` where Python raises `ValueError`.  The rational is always
assembled with `mkRat` over integer arithmetic. -/
def pyFloat (s : List Char) : Option ℚ :=
  let s₀ := pyStrip s
  let sgn : Bool × List Char :=
    match s₀ with
    | '-' :: r => (true, r)
    | '+' :: r => (false, r)
    | _ => (false, s₀)
  let ipart := sgn.2.takeWhile Char.isDigit
  let s₁ := sgn.2.dropWhile Char.isDigit
  let frac : List Char × List Char :=
    match s₁ with
    | '.' :: r => (r.takeWhile Char.isDigit, r.dropWhile Char.isDigit)
    | _ => ([], s₁)
  if ipart.length + frac.1.length = 0 then none
  else
    let m : ℤ := (natOfDigits (ipart ++ frac.1) : ℤ)
    let num : ℤ := if sgn.1 then -m else m
    match frac.2 with
    | [] => some (mkRat num (10 ^ frac.1.length))
    | 'e' :: r => pyFloatExp num frac.1.length r
    | 'E' :: r => pyFloatExp num frac.1.length r
    | _ => none
where
  /-- The exponent part `[+|-]digits` of a Python float literal: the value is
  `num * 10 ^ ±exp / 10 ^ fracLen`. -/
  pyFloatExp (num : ℤ) (fracLen : Nat) (r : List Char) : Option ℚ :=
    let er : Bool × List Char :=
      match r with
      | '-' :: t => (true, t)
      | '+' :: t => (false, t)
      | _ => (false, r)
    let ds := er.2.takeWhile Char.isDigit
    if ds.length = 0 ∨ (er.2.dropWhile Char.isDigit).length ≠ 0 then none
    else
      let e := natOfDigits ds
      if er.1 then some (mkRat num (10 ^ (fracLen + e)))
      else some (mkRat (num * ((10 ^ e : Nat) : ℤ)) (10 ^ fracLen))

/-- Python `int(s)` on a string (base 10): optional surrounding whitespace,
optional sign, one or more digits.  Returns `none` where Python raises
`ValueError`. -/
def pyInt (s : List Char) : Option ℤ :=
  let s₀ := pyStrip s
  let sgn : Bool × List Char :=
    match s₀ with
    | '-' :: r => (true, r)
    | '+' :: r => (false, r)
    | _ => (false, s₀)
  if sgn.2.length ≠ 0 ∧ sgn.2.all Char.isDigit then
    some (if sgn.1 then -(natOfDigits sgn.2 : ℤ) else (natOfDigits sgn.2 : ℤ))
  else none

/-- Python `len(x)` where `x` is an optional string: `len(None)` raises
`TypeError`, exactly as in CPython. -/
def pyLen : Option (List Char) → Except PyError Nat
  | none => .error .typeError
  | some s => .ok s.length

/-- `extract_coordinates_from_url` from `src/main.py`:
`coordinates = url.split('/@')[-1].split('/')[0]` followed by
`float(coordinates.split(',')[0]), float(coordinates.split(',')[1])`.
A failed `float` is a `ValueError`; a missing second token is an
`IndexError` (Python evaluates the first `float` before indexing `[1]`). -/
def extract_coordinates_from_url (url : List Char) : Except PyError (ℚ × ℚ) :=
  let coordinates := (splitOnChar '/' ((splitOnMarker url).getLastD [])).headI
  let toks := splitOnChar ',' coordinates
  match pyFloat toks.headI with
  | none => .error .valueError
  | some a =>
    match toks.tail with
    | [] => .error .indexError
    | t₁ :: _ =>
      match pyFloat t₁ with
      | none => .error .valueError
      | some b => .ok (a, b)

/-- Result of the scroll-until-stable discovery loop (`while True:` block of
`main`, src/main.py lines 153-180).  `running` records the loop state
(`previously_counted`, `same_count_attempts`) when the supplied poll sequence
is exhausted without the loop having terminated: the real program would keep
polling the live page. -/
inductive LoopResult (α : Type) where
  | targetReached (handles : List α)
  | exhausted (handles : List α)
  | running (prev att : Nat)
deriving DecidableEq, Repr

/-- The discovery loop of `main` (src/main.py lines 150-180), driven by the
successive DOM snapshots `doms` (one list of matched result anchors per poll;
`current_count` is its length).  `f` models `listing.locator("xpath=..")`,
the parent of an anchor — applied on the target branch only.  Initial call:
`previously_counted = 0`, `same_count_attempts = 0`. -/
def discoveryLoop {α : Type} (f : α → α) (total : Nat) :
    Nat → Nat → List (List α) → LoopResult α
  | prev, att, [] => .running prev att
  | _prev, att, dom :: rest =>
    if total ≤ dom.length then
      .targetReached ((dom.take total).map f)
    else if dom.length = _prev then
      if 3 ≤ att + 1 then .exhausted dom
      else discoveryLoop f total dom.length (att + 1) rest
    else discoveryLoop f total dom.length 0 rest

/-- `total` as resolved by `main` (src/main.py lines 100-104): the value of
`--total` when passed and truthy, otherwise the fallback `1_000_000`
(the code comment calls it a "random big number"; it is not infinite). -/
def resolve_total : Option Nat → Nat
  | some n => if n ≠ 0 then n else 1000000
  | none => 1000000

/-- A Python run-time value as stored in a `Business` dataclass field:
the dataclass defaults every field to `None`; extraction writes strings,
ints (`reviews_count`), or floats (`reviews_average`, coordinates). -/
inductive PyVal where
  | none
  | str (s : List Char)
  | int (n : ℤ)
  | float (q : ℚ)
deriving DecidableEq, Repr

/-- The `Business` dataclass of src/main.py (all fields default to `None`). -/
structure Business where
  name : PyVal := .none
  address : PyVal := .none
  website : PyVal := .none
  phone_number : PyVal := .none
  reviews_count : PyVal := .none
  reviews_average : PyVal := .none
  latitude : PyVal := .none
  longitude : PyVal := .none
  url : PyVal := .none
deriving DecidableEq, Repr

/-- Snapshot of everything the page session answers while one listing is
processed (src/main.py lines 185-236).  Each `Option` field is `none` when
the corresponding locator matches zero elements (for `ariaLabel`: when the
attribute is absent, so `get_attribute` returns `None`).  `reviewAvgLabel`
is doubly optional: outer `none` = locator matched nothing, inner = the
`aria-label` attribute of the matched element.  `url` is `page.url` after
clicking the listing and waiting. -/
structure ItemPage where
  ariaLabel : Option (List Char)
  addressText : Option (List Char)
  websiteText : Option (List Char)
  phoneText : Option (List Char)
  reviewCountText : Option (List Char)
  reviewAvgLabel : Option (Option (List Char))
  url : List Char
deriving DecidableEq, Repr

/-- The `reviews_count` pipeline (src/main.py lines 218-221):
`int(text.split()[0].replace(',', '').strip())` on the visible text of the
review-count element.  An empty split is an `IndexError`; a non-numeric
token is a `ValueError`. -/
def parse_reviews_count (t : List Char) : Except PyError ℤ :=
  match pySplitWs t with
  | [] => .error .indexError
  | w :: _ =>
    match pyInt (pyStrip (pyReplaceChar w ',' [])) with
    | some n => .ok n
    | none => .error .valueError

/-- The `reviews_average` pipeline (src/main.py lines 225-228):
`float(attr.split()[0].replace(',', '.').strip())` on the `aria-label`
attribute of the rating element.  A `None` attribute raises
`AttributeError` (`None.split()`); an empty split is an `IndexError`; a
non-numeric token is a `ValueError`. -/
def parse_reviews_average (attr : Option (List Char)) : Except PyError ℚ :=
  match attr with
  | none => .error .attributeError
  | some t =>
    match pySplitWs t with
    | [] => .error .indexError
    | w :: _ =>
      match pyFloat (pyStrip (pyReplaceChar w ',' ['.'])) with
      | some q => .ok q
      | none => .error .valueError

/-- One iteration of the per-listing scraping loop (src/main.py lines
186-236), i.e. the body of the `try:` block: click the listing (a pure state
change on the snapshot model), read the name from the listing handle's
`aria-label` (note: `len(None)` raises `TypeError` when the attribute is
absent), default address/website/phone to `""` when their locators match
nothing, parse the review count and average when present, then extract
coordinates and the URL.  The first raised exception aborts the item. -/
def extract_item (it : ItemPage) : Except PyError Business :=
  match pyLen it.ariaLabel with
  | .error e => .error e
  | .ok n =>
    let nameV : PyVal := if 1 ≤ n then .str (it.ariaLabel.getD []) else .str []
    let addressV : PyVal := .str (it.addressText.getD [])
    let websiteV : PyVal := .str (it.websiteText.getD [])
    let phoneV : PyVal := .str (it.phoneText.getD [])
    match
      (match it.reviewCountText with
       | some t => (parse_reviews_count t).map PyVal.int
       | none => .ok (.str [])) with
    | .error e => .error e
    | .ok rcV =>
      match
        (match it.reviewAvgLabel with
         | some attr => (parse_reviews_average attr).map PyVal.float
         | none => .ok (.str [])) with
      | .error e => .error e
      | .ok raV =>
        match extract_coordinates_from_url it.url with
        | .error e => .error e
        | .ok c =>
          .ok { name := nameV, address := addressV, website := websiteV,
                phone_number := phoneV, reviews_count := rcV,
                reviews_average := raV, latitude := .float c.1,
                longitude := .float c.2, url := .str it.url }

/-- The full per-listing loop (src/main.py lines 185-239): each listing is
extracted inside `try:`; on success the record is appended to the
`BusinessList`, on any exception one `logger.error` line is emitted and the
loop continues.  Returns (records in order, number of errors logged). -/
def scrape_items : List ItemPage → List Business × Nat
  | [] => ([], 0)
  | it :: rest =>
    let r := scrape_items rest
    match extract_item it with
    | .ok b => (b :: r.1, r.2)
    | .error _ => (r.1, r.2 + 1)

/-- The external page session, as a snapshot environment: `polls term` is
the sequence of DOM snapshots the discovery loop would observe for that
search term (each snapshot the rendered result anchors, already carrying
their per-item query answers), and `parentOf` is `locator("xpath=..")`. -/
structure SessionEnv where
  polls : List Char → List (List ItemPage)
  parentOf : ItemPage → ItemPage

/-- Discovery plus extraction for one search term (the body of the
`for search_for in search_list` loop).  `none` models the case where the
discovery loop never terminates on the supplied poll sequence (the real
program would be stuck polling).  Otherwise returns the records and the
number of per-item errors logged. -/
def scrape_term (env : SessionEnv) (total : Nat) (term : List Char) :
    Option (List Business × Nat) :=
  match discoveryLoop env.parentOf total 0 0 (env.polls term) with
  | .running _ _ => none
  | .targetReached listings => some (scrape_items listings)
  | .exhausted listings => some (scrape_items listings)

/-- Page-session interactions performed while processing one term: fill the
search box, press Enter, hover (3), then one scroll and one count query per
poll.  (Per-item clicks and queries would add more; any positive count
suffices for the properties stated about this model.) -/
def term_interactions (env : SessionEnv) (term : List Char) : Nat :=
  3 + 2 * (env.polls term).length

/-- All search terms in sequence; stops (hung) at the first term whose
discovery loop does not terminate.  Returns (per-term record batches,
page interactions, hung flag). -/
def scrape_terms (env : SessionEnv) (total : Nat) :
    List (List Char) → List (List Business) × Nat × Bool
  | [] => ([], 0, false)
  | t :: ts =>
    match scrape_term env total t with
    | none => ([], term_interactions env t, true)
    | some (bs, _errs) =>
      let r := scrape_terms env total ts
      (bs :: r.1, term_interactions env t + r.2.1, r.2.2)

/-- Python truthiness of `args.search` (an optional string): `None` and the
empty string are falsy. -/
def pyTruthyStr : Option (List Char) → Bool
  | none => false
  | some s => decide (s ≠ [])

/-- The exact message printed by src/main.py line 120. -/
def error_message : List Char :=
  "Error occured: You must either pass the -s search argument, or add searches to input.txt".data

/-- Observable outcome of one program run.  `sysExitArg = none` models the
bare `sys.exit()` call of line 121 (a `SystemExit` carrying no code, which
the interpreter reports as OS status 0); `some 0` is the final
`sys.exit(0)`.  `pageInteractions` counts navigations, scrolls and element
queries against the page session (the `goto` of line 134 is the first). -/
structure MainOutcome where
  printedError : Option (List Char)
  sysExitArg : Option Nat
  pageInteractions : Nat
  batches : List (List Business)
  hung : Bool
deriving Repr

/-- `main` of src/main.py: resolve the search list from `--search` or from
the fallback `input.txt` (whose `readlines()` result is `inputLines`,
`none` when the file does not exist), fail fast when no terms resolve
(lines 106-121, before any page-session work), otherwise resolve `total`
and scrape every term. -/
def run_main (searchArg : Option (List Char)) (totalArg : Option Nat)
    (inputLines : Option (List (List Char))) (env : SessionEnv) : MainOutcome :=
  let total := resolve_total totalArg
  if pyTruthyStr searchArg then
    let r := scrape_terms env total [searchArg.getD []]
    { printedError := none, sysExitArg := if r.2.2 then none else some 0,
      pageInteractions := 1 + r.2.1, batches := r.1, hung := r.2.2 }
  else
    let search_list := inputLines.getD []
    if search_list.length = 0 then
      { printedError := some error_message, sysExitArg := none,
        pageInteractions := 0, batches := [], hung := false }
    else
      let r := scrape_terms env total search_list
      { printedError := none, sysExitArg := if r.2.2 then none else some 0,
        pageInteractions := 1 + r.2.1, batches := r.1, hung := r.2.2 }

/-- A page session with no results at all (used to instantiate theorems at
a concrete environment). -/
def trivEnv : SessionEnv :=
  { polls := fun _ => [], parentOf := fun h => h }

/-- A detail-page URL with coordinates `12.5, -7.25`. -/
def sampleUrl : List Char := "https://maps.test/@12.5,-7.25,15z".data

/-- A fully populated listing snapshot. -/
def itemFull : ItemPage :=
  { ariaLabel := some "Cafe X".data
    addressText := some "1 Main St".data
    websiteText := some "cafex.test".data
    phoneText := some "555 0100".data
    reviewCountText := some "1,234 reviews".data
    reviewAvgLabel := some (some "4,5 stars".data)
    url := sampleUrl }

/-- A listing whose handle has no `aria-label` attribute but is otherwise
fully populated. -/
def itemNoAria : ItemPage :=
  { itemFull with ariaLabel := none }

/-- A listing with a name and URL but with no address / website / phone /
review elements on its detail page. -/
def itemDefaults : ItemPage :=
  { ariaLabel := some "Cafe X".data
    addressText := none
    websiteText := none
    phoneText := none
    reviewCountText := none
    reviewAvgLabel := none
    url := sampleUrl }

/-- A listing whose detail-page URL has no coordinate marker. -/
def itemBadUrl : ItemPage :=
  { itemDefaults with url := "https://maps.test/nowhere".data }

/-- The record `extract_item` produces for `itemDefaults`. -/
def businessDefaults : Business :=
  { name := .str "Cafe X".data, address := .str [], website := .str [],
    phone_number := .str [], reviews_count := .str [],
    reviews_average := .str [], latitude := .float (mkRat 125 10),
    longitude := .float (mkRat (-725) 100), url := .str sampleUrl }

/-- The `--total`-absent poll sequence `[5, 8, 8, 8]` named by the spec
(each poll rendered as that many distinct anchors). -/
def polls5888 : List (List Nat) :=
  [List.range 5, List.range 8, List.range 8, List.range 8]

/-- `safe prev att cs j`: running the stability bookkeeping of the discovery
loop (rules 4/5 of the spec state machine, src/main.py lines 165-179) from
state (`previously_counted = prev`, `same_count_attempts = att`) over the
first `j` counts of `cs` never trips the three-stable-attempts exhaustion
stop. -/
def safe : Nat → Nat → List Nat → Nat → Prop
  | _, _, _, 0 => True
  | _, _, [], _ + 1 => True
  | prev, att, c :: cs, j + 1 =>
    (c = prev → att + 1 < 3) ∧ safe c (if c = prev then att + 1 else 0) cs j

/-- No three consecutive equal readings occur among the first `j` entries of
the poll-count sequence `cs` (the spec's side condition for the
target-reached termination property). -/
def no3eq (cs : List Nat) (j : Nat) : Prop :=
  ∀ k, k + 2 < j →
    ¬(cs.getD k 0 = cs.getD (k + 1) 0 ∧ cs.getD (k + 1) 0 = cs.getD (k + 2) 0)

/-- The record `extract_item` produces for `itemFull` (note `1,234` with the
thousands separator removed, and `4,5` with the decimal comma normalised). -/
def businessFull : Business :=
  { name := .str "Cafe X".data, address := .str "1 Main St".data,
    website := .str "cafex.test".data, phone_number := .str "555 0100".data,
    reviews_count := .int 1234, reviews_average := .float (mkRat 45 10),
    latitude := .float (mkRat 125 10), longitude := .float (mkRat (-725) 100),
    url := .str sampleUrl }

/-- Distinctly named copies of `itemFull`, to exhibit batch ordering. -/
def itemA : ItemPage := { itemFull with ariaLabel := some "A".data }

/-- Distinctly named copies of `itemFull`, to exhibit batch ordering. -/
def itemB : ItemPage := { itemFull with ariaLabel := some "B".data }

/-- Distinctly named copies of `itemFull`, to exhibit batch ordering. -/
def itemD : ItemPage := { itemFull with ariaLabel := some "D".data }

/-- Distinctly named copies of `itemFull`, to exhibit batch ordering. -/
def itemE : ItemPage := { itemFull with ariaLabel := some "E".data }

/-! ### Helper lemmas about the string-splitting primitives -/

theorem splitOnChar_ne_nil (sep : Char) (s : List Char) : splitOnChar sep s ≠ [] := by
  cases s with
  | nil => simp [splitOnChar]
  | cons c rest =>
    simp only [splitOnChar]
    split <;> simp

theorem splitOnChar_eq_single {sep : Char} :
    ∀ {s : List Char}, sep ∉ s → splitOnChar sep s = [s] := by
  intro s
  induction s with
  | nil => intro _; rfl
  | cons c rest ih =>
    intro h
    have hc : ¬(c = sep) := by
      rintro rfl
      exact h (List.mem_cons_self _ _)
    have hr : sep ∉ rest := fun hm => h (List.mem_cons_of_mem _ hm)
    simp only [splitOnChar, if_neg hc, ih hr]
    rfl

theorem splitOnChar_append {sep : Char} :
    ∀ {s : List Char} (t : List Char), sep ∉ s →
      splitOnChar sep (s ++ sep :: t) = s :: splitOnChar sep t := by
  intro s
  induction s with
  | nil => intro t _; simp [splitOnChar]
  | cons c s' ih =>
    intro t h
    have hc : ¬(c = sep) := by
      rintro rfl
      exact h (List.mem_cons_self _ _)
    have hs : sep ∉ s' := fun hm => h (List.mem_cons_of_mem _ hm)
    simp only [List.cons_append, splitOnChar, List.append_eq, if_neg hc, ih t hs]
    rfl

theorem splitOnMarker_ne_nil : ∀ s, splitOnMarker s ≠ [] := by
  intro s
  cases s with
  | nil => simp [splitOnMarker]
  | cons c₁ rest =>
    cases rest with
    | nil => simp [splitOnMarker]
    | cons c₂ rest' =>
      simp only [splitOnMarker]
      split <;> simp

theorem containsMarker_cons_eq (c : Char) (rest : List Char) :
    containsMarker (c :: rest) =
      ((match rest with
        | r₀ :: _ => decide (c = '/' ∧ r₀ = '@')
        | [] => false) || containsMarker rest) := by
  rfl

theorem splitOnMarker_eq_single :
    ∀ {s : List Char}, containsMarker s = false → splitOnMarker s = [s] := by
  intro s
  induction s using splitOnMarker.induct with
  | case1 => intro _; rfl
  | case2 c => intro _; rfl
  | case3 c₁ c₂ rest hm _ =>
    intro h
    exfalso
    rw [containsMarker_cons_eq, Bool.or_eq_false_iff] at h
    have := h.1
    simp [hm.1, hm.2] at this
  | case4 c₁ c₂ rest hm ih =>
    intro h
    rw [containsMarker_cons_eq, Bool.or_eq_false_iff] at h
    rw [splitOnMarker, if_neg hm, ih h.2]
    rfl

theorem containsMarker_append (y : List Char) :
    ∀ x, containsMarker (x ++ '/' :: '@' :: y) = true := by
  intro x
  induction x with
  | nil =>
    rw [List.nil_append, containsMarker_cons_eq]
    simp
  | cons a x' ih =>
    rw [List.cons_append, containsMarker_cons_eq]
    rw [ih, Bool.or_true]

theorem splitOnMarker_length_ge2 :
    ∀ {s : List Char}, containsMarker s = true → 2 ≤ (splitOnMarker s).length := by
  intro s
  induction s using splitOnMarker.induct with
  | case1 => intro h; simp [containsMarker] at h
  | case2 c =>
    intro h
    rw [containsMarker_cons_eq] at h
    simp [containsMarker] at h
  | case3 c₁ c₂ rest hm _ =>
    intro _
    rw [splitOnMarker, if_pos hm]
    have := splitOnMarker_ne_nil rest
    simp only [List.length_cons]
    cases hr : splitOnMarker rest with
    | nil => exact absurd hr this
    | cons p ps => simp
  | case4 c₁ c₂ rest hm ih =>
    intro h
    rw [containsMarker_cons_eq, Bool.or_eq_true] at h
    have h2 : containsMarker (c₂ :: rest) = true := by
      rcases h with h | h
      · exfalso
        have : decide (c₁ = '/' ∧ c₂ = '@') = true := by
          simpa using h
        exact hm (of_decide_eq_true this)
      · exact h
    rw [splitOnMarker, if_neg hm]
    have := ih h2
    cases hr : splitOnMarker (c₂ :: rest) with
    | nil => exact absurd hr (splitOnMarker_ne_nil _)
    | cons p ps =>
      rw [hr] at this
      simp only [List.length_cons] at this ⊢
      simpa using this

theorem getLastD_cons_cons {α : Type} (a d b : α) (t : List α) :
    (a :: b :: t).getLastD d = (b :: t).getLastD d := by
  simp [List.getLastD_eq_getLast?, List.getLast?_cons_cons]

theorem splitOnMarker_append_getLast_fuel (y : List Char)
    (hy : containsMarker y = false) :
    ∀ (n : Nat) (x : List Char), x.length ≤ n →
      (splitOnMarker (x ++ '/' :: '@' :: y)).getLastD [] = y := by
  intro n
  induction n with
  | zero =>
    intro x hx
    have hx0 : x = [] := List.length_eq_zero.mp (Nat.le_zero.mp hx)
    subst hx0
    rw [List.nil_append, splitOnMarker, if_pos ⟨rfl, rfl⟩,
      splitOnMarker_eq_single hy]
    rfl
  | succ n ih =>
    intro x hx
    match x with
    | [] =>
      rw [List.nil_append, splitOnMarker, if_pos ⟨rfl, rfl⟩,
        splitOnMarker_eq_single hy]
      rfl
    | [a] =>
      have hnm : ¬(a = '/' ∧ '/' = '@') := by
        rintro ⟨-, h⟩
        exact absurd h (by decide)
      rw [List.cons_append, List.nil_append, splitOnMarker, if_neg hnm,
        splitOnMarker, if_pos ⟨rfl, rfl⟩, splitOnMarker_eq_single hy]
      rfl
    | a :: b :: x'' =>
      by_cases hab : a = '/' ∧ b = '@'
      · rw [List.cons_append, List.cons_append, splitOnMarker, if_pos hab]
        have hlen : x''.length ≤ n := by
          simp only [List.length_cons] at hx
          omega
        have hrec := ih x'' hlen
        cases hr : splitOnMarker (x'' ++ '/' :: '@' :: y) with
        | nil => exact absurd hr (splitOnMarker_ne_nil _)
        | cons p ps =>
          rw [hr] at hrec
          rw [getLastD_cons_cons]
          exact hrec
      · have hshape : (b :: x'') ++ '/' :: '@' :: y = b :: (x'' ++ '/' :: '@' :: y) := by
          simp
        have hlen : (b :: x'').length ≤ n := by
          simp only [List.length_cons] at hx ⊢
          omega
        have hrec := ih (b :: x'') hlen
        rw [List.cons_append, hshape, splitOnMarker, if_neg hab]
        cases hr : splitOnMarker (b :: (x'' ++ '/' :: '@' :: y)) with
        | nil => exact absurd hr (splitOnMarker_ne_nil _)
        | cons p ps =>
          rw [hshape] at hrec
          rw [hr] at hrec
          have hcm : containsMarker (b :: (x'' ++ '/' :: '@' :: y)) = true := by
            have := containsMarker_append y (b :: x'')
            rwa [hshape] at this
          have hlen2 : 2 ≤ (splitOnMarker (b :: (x'' ++ '/' :: '@' :: y))).length :=
            splitOnMarker_length_ge2 hcm
          rw [hr] at hlen2
          cases ps with
          | nil => simp at hlen2
          | cons q qs =>
            simp only [List.headI, List.tail]
            rw [getLastD_cons_cons]
            rw [getLastD_cons_cons] at hrec
            exact hrec

theorem splitOnMarker_append_getLast {y : List Char}
    (hy : containsMarker y = false) (x : List Char) :
    (splitOnMarker (x ++ '/' :: '@' :: y)).getLastD [] = y :=
  splitOnMarker_append_getLast_fuel y hy x.length x le_rfl

/-! ### Helper lemmas about the discovery loop -/

theorem no3eq_tail {c : Nat} {cs : List Nat} {j : Nat}
    (h : no3eq (c :: cs) (j + 1)) : no3eq cs j := by
  intro k hk
  have := h (k + 1) (by omega)
  simpa [List.getD_cons_succ] using this

theorem safe_of_no3eq :
    ∀ (cs : List Nat) (j p : Nat),
      (no3eq cs j → safe p 0 cs j) ∧
      (no3eq (p :: cs) (j + 1) → safe p 1 cs j) ∧
      (no3eq (p :: p :: cs) (j + 2) → safe p 2 cs j) := by
  intro cs
  induction cs with
  | nil =>
    intro j p
    refine ⟨fun _ => ?_, fun _ => ?_, fun _ => ?_⟩ <;> cases j <;> trivial
  | cons c cs ih =>
    intro j p
    cases j with
    | zero => exact ⟨fun _ => trivial, fun _ => trivial, fun _ => trivial⟩
    | succ j =>
      refine ⟨fun h => ⟨fun _ => by omega, ?_⟩, fun h => ⟨fun _ => by omega, ?_⟩,
        fun h => ?_⟩
      · by_cases hc : c = p
        · rw [if_pos hc]
          subst hc
          exact (ih j c).2.1 h
        · rw [if_neg hc]
          exact (ih j c).1 (no3eq_tail h)
      · by_cases hc : c = p
        · rw [if_pos hc]
          subst hc
          exact (ih j c).2.2 h
        · rw [if_neg hc]
          exact (ih j c).1 (no3eq_tail (no3eq_tail h))
      · have hne : ¬(c = p) := by
          intro hc
          have h0 := h 0 (by omega)
          apply h0
          subst hc
          simp [List.getD_cons_zero, List.getD_cons_succ]
        refine ⟨fun hc => absurd hc hne, ?_⟩
        rw [if_neg hne]
        exact (ih j c).1 (no3eq_tail (no3eq_tail (no3eq_tail h)))

theorem safe_start {cs : List Nat} {j : Nat} (h : no3eq cs j) : safe 0 0 cs j :=
  (safe_of_no3eq cs j 0).1 h

theorem loop_target_of_safe {α : Type} (f : α → α) (t : Nat) :
    ∀ (doms : List (List α)) (j prev att : Nat),
      safe prev att (doms.map List.length) j →
      j < doms.length →
      (∀ i, i < j → (doms.getD i []).length < t) →
      t ≤ (doms.getD j []).length →
      discoveryLoop f t prev att doms = .targetReached (((doms.getD j []).take t).map f) := by
  intro doms
  induction doms with
  | nil =>
    intro j prev att _ hj _ _
    exact absurd hj (by simp)
  | cons d rest ih =>
    intro j prev att hs hj hb hr
    cases j with
    | zero =>
      rw [List.getD_cons_zero] at hr ⊢
      rw [discoveryLoop, if_pos hr]
    | succ j =>
      have hd : d.length < t := by
        have := hb 0 (Nat.succ_pos j)
        simpa using this
      rw [List.getD_cons_succ] at hr
      have hb' : ∀ i, i < j → (rest.getD i []).length < t := by
        intro i hi
        have := hb (i + 1) (by omega)
        simpa [List.getD_cons_succ] using this
      have hj' : j < rest.length := by
        simp only [List.length_cons] at hj
        omega
      rw [List.map_cons] at hs
      obtain ⟨h1, h2⟩ := hs
      rw [discoveryLoop, if_neg (by omega), List.getD_cons_succ]
      by_cases hc : d.length = prev
      · rw [if_pos hc]
        have h3 : att + 1 < 3 := h1 hc
        rw [if_neg (by omega)]
        rw [if_pos hc] at h2
        exact ih j d.length (att + 1) h2 hj' hb' hr
      · rw [if_neg hc]
        rw [if_neg hc] at h2
        exact ih j d.length 0 h2 hj' hb' hr

theorem loop_no_target {α : Type} (f : α → α) (t : Nat) :
    ∀ (doms : List (List α)) (prev att : Nat),
      (∀ d ∈ doms, d.length < t) →
      ∀ hs, discoveryLoop f t prev att doms ≠ .targetReached hs := by
  intro doms
  induction doms with
  | nil =>
    intro prev att _ hs
    rw [discoveryLoop]
    exact fun h => by cases h
  | cons d rest ih =>
    intro prev att h hs
    have hd : d.length < t := h d (List.mem_cons_self _ _)
    have hrest : ∀ x ∈ rest, x.length < t := fun x hx => h x (List.mem_cons_of_mem _ hx)
    rw [discoveryLoop, if_neg (by omega)]
    by_cases hc : d.length = prev
    · rw [if_pos hc]
      by_cases h3 : 3 ≤ att + 1
      · rw [if_pos h3]
        exact fun h => by cases h
      · rw [if_neg h3]
        exact ih _ _ hrest hs
    · rw [if_neg hc]
      exact ih _ _ hrest hs

theorem loop_branch_shapes {α : Type} (f : α → α) (t : Nat) :
    ∀ (doms : List (List α)) (prev att : Nat) (hs : List α),
      (discoveryLoop f t prev att doms = .exhausted hs →
        ∃ d ∈ doms, hs = d ∧ d.length < t) ∧
      (discoveryLoop f t prev att doms = .targetReached hs →
        ∃ d ∈ doms, hs = (d.take t).map f ∧ t ≤ d.length) := by
  intro doms
  induction doms with
  | nil =>
    intro prev att hs
    constructor <;> · rw [discoveryLoop]; exact fun h => by cases h
  | cons d rest ih =>
    intro prev att hs
    constructor
    · intro h
      rw [discoveryLoop] at h
      by_cases h1 : t ≤ d.length
      · rw [if_pos h1] at h
        cases h
      · rw [if_neg h1] at h
        by_cases hc : d.length = prev
        · rw [if_pos hc] at h
          by_cases h3 : 3 ≤ att + 1
          · rw [if_pos h3] at h
            cases h
            exact ⟨d, List.mem_cons_self _ _, rfl, by omega⟩
          · rw [if_neg h3] at h
            obtain ⟨x, hx, hxs, hxt⟩ := (ih d.length (att + 1) hs).1 h
            exact ⟨x, List.mem_cons_of_mem _ hx, hxs, hxt⟩
        · rw [if_neg hc] at h
          obtain ⟨x, hx, hxs, hxt⟩ := (ih d.length 0 hs).1 h
          exact ⟨x, List.mem_cons_of_mem _ hx, hxs, hxt⟩
    · intro h
      rw [discoveryLoop] at h
      by_cases h1 : t ≤ d.length
      · rw [if_pos h1] at h
        cases h
        exact ⟨d, List.mem_cons_self _ _, rfl, h1⟩
      · rw [if_neg h1] at h
        by_cases hc : d.length = prev
        · rw [if_pos hc] at h
          by_cases h3 : 3 ≤ att + 1
          · rw [if_pos h3] at h
            cases h
          · rw [if_neg h3] at h
            obtain ⟨x, hx, hxs, hxt⟩ := (ih d.length (att + 1) hs).2 h
            exact ⟨x, List.mem_cons_of_mem _ hx, hxs, hxt⟩
        · rw [if_neg hc] at h
          obtain ⟨x, hx, hxs, hxt⟩ := (ih d.length 0 hs).2 h
          exact ⟨x, List.mem_cons_of_mem _ hx, hxs, hxt⟩

/-! ### Helper lemmas about the per-item extraction loop -/

theorem scrape_items_fst :
    ∀ l, (scrape_items l).1 = l.filterMap fun it => (extract_item it).toOption := by
  intro l
  induction l with
  | nil => rfl
  | cons it rest ih =>
    rw [scrape_items]
    cases h : extract_item it <;>
      simp [List.filterMap_cons, h, Except.toOption, ih]

theorem scrape_items_snd :
    ∀ l, (scrape_items l).2 = (l.filter fun it => !(extract_item it).isOk).length := by
  intro l
  induction l with
  | nil => rfl
  | cons it rest ih =>
    rw [scrape_items]
    cases h : extract_item it <;>
      simp [List.filter_cons, h, Except.isOk, Except.toBool, ih]

theorem extract_item_toOption_none_of_coord {it : ItemPage}
    (h : ∃ e, extract_coordinates_from_url it.url = .error e) :
    (extract_item it).toOption = none := by
  obtain ⟨e, h⟩ := h
  simp only [extract_item, h]
  repeat first
  | rfl
  | split

theorem extract_coordinates_success
    (pre latS lonS extra rest : List Char) (a b : ℚ)
    (hnm : containsMarker (latS ++ ',' :: lonS ++ extra ++ '/' :: rest) = false)
    (hlatc : ',' ∉ latS) (hlonc : ',' ∉ lonS)
    (hlats : '/' ∉ latS) (hlons : '/' ∉ lonS)
    (hextra : extra = [] ∨ ∃ e, extra = ',' :: e) (hextras : '/' ∉ extra)
    (ha : pyFloat latS = some a) (hb : pyFloat lonS = some b) :
    extract_coordinates_from_url
      (pre ++ '/' :: '@' :: (latS ++ ',' :: lonS ++ extra ++ '/' :: rest))
      = .ok (a, b) := by
  have hassoc : latS ++ ',' :: lonS ++ extra ++ '/' :: rest
      = (latS ++ ',' :: (lonS ++ extra)) ++ '/' :: rest := by
    simp
  have hns : '/' ∉ latS ++ ',' :: (lonS ++ extra) := by
    intro hm
    rcases List.mem_append.mp hm with hm | hm
    · exact hlats hm
    · rcases List.mem_cons.mp hm with hm | hm
      · exact absurd hm (by decide)
      · rcases List.mem_append.mp hm with hm | hm
        · exact hlons hm
        · exact hextras hm
  simp only [extract_coordinates_from_url]
  rw [splitOnMarker_append_getLast hnm pre, hassoc, splitOnChar_append _ hns]
  simp only [List.headI]
  rw [splitOnChar_append _ hlatc]
  rcases hextra with hE | ⟨e, hE⟩
  · subst hE
    rw [List.append_nil, splitOnChar_eq_single hlonc]
    simp only [List.headI, List.tail_cons]
    rw [ha, hb]
  · subst hE
    rw [splitOnChar_append _ hlonc]
    simp only [List.headI, List.tail_cons]
    rw [ha, hb]

/-! ### Claim theorems -/

/-- C1 (counterexample): running the discovery loop with the absent
`--total` default on the poll-count sequence `[5, 8, 8, 8]` does NOT
terminate: the first `8` is growth, so only two stable attempts accrue
within the sequence and the loop is still polling (state
`previously_counted = 8`, `same_count_attempts = 2`), not `EXHAUSTED`. -/
theorem discovery_exhaustion_5888_cex :
    discoveryLoop (id : Nat → Nat) (resolve_total none) 0 0 polls5888 = .running 8 2 ∧
    discoveryLoop (id : Nat → Nat) (resolve_total none) 0 0 polls5888 ≠
      .exhausted (List.range 8) := by
  constructor
  · decide
  · decide

/-- C1 (amended): on the poll-count sequence `[5, 8, 8, 8, 8]` — one more
stable `8` than the claim's sequence — the loop with the absent-`--total`
default terminates `EXHAUSTED` at the third stable attempt, returning the
8 discovered handles (unmapped anchors). -/
theorem discovery_exhaustion_amended :
    discoveryLoop (id : Nat → Nat) (resolve_total none) 0 0
      (polls5888 ++ [List.range 8]) = .exhausted (List.range 8) ∧
    (List.range 8).length = 8 := by
  constructor
  · decide
  · decide

/-- C3: with no `--search` argument and an absent or empty fallback file,
`main` prints the configuration error and stops via bare `sys.exit()`
before the Playwright block: zero page-session interactions, no batches.
(`sysExitArg = none` is the bare `sys.exit()`: a `SystemExit` abort whose
OS-level status is 0, not a non-zero code.) -/
theorem no_input_fatal_path (totalArg : Option Nat)
    (inputLines : Option (List (List Char))) (env : SessionEnv)
    (hin : inputLines.getD [] = []) :
    run_main none totalArg inputLines env =
      { printedError := some error_message, sysExitArg := none,
        pageInteractions := 0, batches := [], hung := false } := by
  simp [run_main, pyTruthyStr, hin]

/-- Witness for C3 at the concrete input: no `--search`, no `input.txt`. -/
theorem no_input_fatal_path_witness :
    run_main none none none trivEnv =
      { printedError := some error_message, sysExitArg := none,
        pageInteractions := 0, batches := [], hung := false } :=
  no_input_fatal_path none none trivEnv rfl

/-- C4 (counterexample): with `--total` absent the code sets
`total = 1_000_000`, not an unbounded target, so a poll that renders
1,000,000 anchors fires the target-reached transition (rule 3). -/
theorem default_total_target_fires_cex :
    discoveryLoop (id : Nat → Nat) (resolve_total none) 0 0
      [List.replicate 1000000 0] = .targetReached (List.replicate 1000000 0) := by
  have h1 : (List.replicate 1000000 (0 : Nat)).length ≤ resolve_total none := by
    rw [List.length_replicate]
    exact Nat.le_refl _
  have h2 : resolve_total none ≤ (List.replicate 1000000 (0 : Nat)).length := by
    rw [List.length_replicate]
    exact Nat.le_refl _
  rw [discoveryLoop, if_pos h2, List.take_of_length_le h1, List.map_id]

/-- C4 (amended): with `--total` absent the target defaults to `1_000_000`;
for every poll sequence whose counts stay below that default, rule 3 never
fires, so the loop can only terminate via `EXHAUSTED`. -/
theorem default_total_below_no_target {α : Type} (f : α → α)
    (doms : List (List α))
    (h : ∀ d ∈ doms, d.length < resolve_total none) (hs : List α) :
    discoveryLoop f (resolve_total none) 0 0 doms ≠ .targetReached hs :=
  loop_no_target f (resolve_total none) doms 0 0 h hs

/-- Witness for C4 (amended) at a concrete one-poll sequence. -/
theorem default_total_below_no_target_witness :
    discoveryLoop (id : Nat → Nat) (resolve_total none) 0 0 [[0]] ≠
      .targetReached [] :=
  default_total_below_no_target id [[0]] (by decide) []

/-- C5 (counterexample): the code never checks that the `/@` marker is
present — on the marker-less URL `"1,2"` the parser succeeds with
`(1.0, 2.0)` instead of failing, refuting "for every URL in which the
marker is absent ... the parser fails". -/
theorem coordinate_no_marker_success_cex :
    containsMarker "1,2".data = false ∧
    extract_coordinates_from_url "1,2".data = .ok (mkRat 1 1, mkRat 2 1) := by
  constructor
  · decide
  · decide

/-- C5 (amended): the parser works on the substring after the LAST `/@`
occurrence (the whole URL when the marker is absent), takes the portion
before the next `/`, splits on `,` and parses the first two tokens,
discarding the rest: (i) for every URL of that shape whose suffix after the
marker contains no further marker and whose two leading tokens are numeric,
it returns exactly `(lat, lon)`; (ii) the round-trip example
`parse("https://x/place/@12.345,-98.765,15z") = (12.345, -98.765)` holds
(`mkRat 12345 1000 = 12.345`); (iii) `"https://x/place/no-marker"` fails
with `ValueError` (Python has no distinct `MalformedUrl`); (iv) a parse
failure aborts extraction of that single item only, never the batch. -/
theorem coordinate_parse_amended :
    (∀ (pre latS lonS extra rest : List Char) (a b : ℚ),
      containsMarker (latS ++ ',' :: lonS ++ extra ++ '/' :: rest) = false →
      ',' ∉ latS → ',' ∉ lonS → '/' ∉ latS → '/' ∉ lonS →
      (extra = [] ∨ ∃ e, extra = ',' :: e) → '/' ∉ extra →
      pyFloat latS = some a → pyFloat lonS = some b →
      extract_coordinates_from_url
        (pre ++ '/' :: '@' :: (latS ++ ',' :: lonS ++ extra ++ '/' :: rest))
        = .ok (a, b)) ∧
    extract_coordinates_from_url "https://x/place/@12.345,-98.765,15z".data
      = .ok (mkRat 12345 1000, mkRat (-98765) 1000) ∧
    extract_coordinates_from_url "https://x/place/no-marker".data
      = .error .valueError ∧
    (∀ (it : ItemPage) (pre post : List ItemPage),
      (∃ e, extract_coordinates_from_url it.url = .error e) →
      (scrape_items (pre ++ it :: post)).1 =
        (scrape_items pre).1 ++ (scrape_items post).1) := by
  refine ⟨extract_coordinates_success, by decide, by decide, ?_⟩
  intro it pre post h
  rw [scrape_items_fst, scrape_items_fst, scrape_items_fst,
    List.filterMap_append, List.filterMap_cons,
    extract_item_toOption_none_of_coord h]

/-- Witness for C5 (amended): part (i) applied at a concrete decomposed URL
(`".../@1.5,2,9z/k"` giving `(1.5, 2.0)`), and part (iv) applied at a batch
whose middle item has a marker-less URL. -/
theorem coordinate_parse_amended_witness :
    extract_coordinates_from_url
      ("https://y".data ++ '/' :: '@' ::
        ("1.5".data ++ ',' :: "2".data ++ ",9z".data ++ '/' :: "k".data))
      = .ok (mkRat 15 10, mkRat 2 1) ∧
    (scrape_items ([itemFull] ++ itemBadUrl :: [itemFull])).1 =
      (scrape_items [itemFull]).1 ++ (scrape_items [itemFull]).1 :=
  ⟨coordinate_parse_amended.1 "https://y".data "1.5".data "2".data ",9z".data
      "k".data (mkRat 15 10) (mkRat 2 1) (by decide) (by decide) (by decide)
      (by decide) (by decide) (Or.inr ⟨"9z".data, rfl⟩) (by decide)
      (by decide) (by decide),
   coordinate_parse_amended.2.2.2 itemBadUrl [itemFull] [itemFull]
      ⟨.valueError, by decide⟩⟩

/-- C6: for every poll sequence whose counts stay below the target up to
index `j`, reach it at `j`, and exhibit no three consecutive equal readings
before `j`, the discovery loop terminates `TARGET_REACHED` with exactly
`target` handles: the first `target` anchors of the `j`-th snapshot in
discovery order (each mapped to its parent by `locator("xpath=..")`). -/
theorem discovery_target_path {α : Type} (f : α → α) (t : Nat)
    (doms : List (List α)) (j : Nat) (hj : j < doms.length)
    (hbefore : ∀ i, i < j → (doms.getD i []).length < t)
    (hreach : t ≤ (doms.getD j []).length)
    (h3 : no3eq (doms.map List.length) j) :
    discoveryLoop f t 0 0 doms =
      .targetReached (((doms.getD j []).take t).map f) ∧
    (((doms.getD j []).take t).map f).length = t := by
  refine ⟨loop_target_of_safe f t doms j 0 0 (safe_start h3) hj hbefore hreach, ?_⟩
  rw [List.length_map, List.length_take]
  exact min_eq_left hreach

/-- Witness for C6: target 2, first poll already renders `[5, 6, 7]`. -/
theorem discovery_target_path_witness :
    discoveryLoop Nat.succ 2 0 0 [[5, 6, 7]] = .targetReached [6, 7] ∧
    ([6, 7] : List Nat).length = 2 :=
  discovery_target_path Nat.succ 2 [[5, 6, 7]] 0 (by decide)
    (fun _ hi => absurd hi (by omega)) (by decide)
    (fun _ hk => absurd hk (by omega))

/-- C2 (evaluation at the failing input): a listing handle whose
`aria-label` attribute is absent makes `len(listing.get_attribute(...))`
raise `TypeError` (`len(None)`), so the per-item handler skips the item and
logs one error — the name is NOT defaulted to the empty string and the
absence of the label alone DOES cause the item to be skipped. -/
theorem name_absent_raises_and_skips :
    itemNoAria.ariaLabel = none ∧
    extract_item itemNoAria = .error .typeError ∧
    scrape_items [itemNoAria] = ([], 1) := by
  refine ⟨rfl, by decide, by decide⟩

/-- C7: every successfully extracted record has its `url` set to the
(necessarily non-empty) detail-page URL, `latitude`/`longitude` set to
parsed floats, and every other field set to a string or parsed number —
never left at the dataclass default `None`; fields whose source element is
absent are defaulted to the empty string. -/
theorem record_invariant_and_defaults (it : ItemPage) (b : Business)
    (h : extract_item it = .ok b) :
    (b.url = .str it.url ∧ it.url ≠ []) ∧
    ((∃ la, b.latitude = .float la) ∧ (∃ lo, b.longitude = .float lo)) ∧
    ((∃ s, b.name = .str s) ∧ (∃ s, b.address = .str s) ∧
      (∃ s, b.website = .str s) ∧ (∃ s, b.phone_number = .str s)) ∧
    ((∃ z, b.reviews_count = .int z) ∨ b.reviews_count = .str []) ∧
    ((∃ q, b.reviews_average = .float q) ∨ b.reviews_average = .str []) ∧
    ((it.addressText = none → b.address = .str []) ∧
      (it.websiteText = none → b.website = .str []) ∧
      (it.phoneText = none → b.phone_number = .str []) ∧
      (it.reviewCountText = none → b.reviews_count = .str []) ∧
      (it.reviewAvgLabel = none → b.reviews_average = .str [])) := by
  simp only [extract_item] at h
  rcases hp : pyLen it.ariaLabel with e | n
  · rw [hp] at h
    exact Except.noConfusion h
  · rw [hp] at h
    rcases hrc : (match it.reviewCountText with
        | some t => Except.map PyVal.int (parse_reviews_count t)
        | none => Except.ok (PyVal.str [])) with e | rcV
    · rw [hrc] at h
      exact Except.noConfusion h
    · rw [hrc] at h
      rcases hra : (match it.reviewAvgLabel with
          | some attr => Except.map PyVal.float (parse_reviews_average attr)
          | none => Except.ok (PyVal.str [])) with e | raV
      · rw [hra] at h
        exact Except.noConfusion h
      · rw [hra] at h
        rcases hco : extract_coordinates_from_url it.url with e | c
        · rw [hco] at h
          exact Except.noConfusion h
        · rw [hco] at h
          injection h with h
          subst h
          have hrcfact : ((∃ z, rcV = PyVal.int z) ∨ rcV = PyVal.str []) ∧
              (it.reviewCountText = none → rcV = PyVal.str []) := by
            rcases hct : it.reviewCountText with _ | t
            · simp only [hct, Except.ok.injEq] at hrc
              exact ⟨Or.inr hrc.symm, fun _ => hrc.symm⟩
            · rcases hpc : parse_reviews_count t with e | z
              · simp only [hct, hpc] at hrc
                exact Except.noConfusion hrc
              · simp only [hct, hpc] at hrc
                injection hrc with hrc
                exact ⟨Or.inl ⟨z, hrc.symm⟩, fun hnone => Option.noConfusion hnone⟩
          have hrafact : ((∃ q, raV = PyVal.float q) ∨ raV = PyVal.str []) ∧
              (it.reviewAvgLabel = none → raV = PyVal.str []) := by
            rcases hat : it.reviewAvgLabel with _ | attr
            · simp only [hat, Except.ok.injEq] at hra
              exact ⟨Or.inr hra.symm, fun _ => hra.symm⟩
            · rcases hpa : parse_reviews_average attr with e | q
              · simp only [hat, hpa] at hra
                exact Except.noConfusion hra
              · simp only [hat, hpa] at hra
                injection hra with hra
                exact ⟨Or.inl ⟨q, hra.symm⟩, fun hnone => Option.noConfusion hnone⟩
          refine ⟨⟨rfl, ?_⟩, ⟨⟨c.1, rfl⟩, ⟨c.2, rfl⟩⟩, ⟨?_, ⟨_, rfl⟩, ⟨_, rfl⟩, ⟨_, rfl⟩⟩,
            hrcfact.1, hrafact.1,
            fun ha => by simp [ha], fun hw => by simp [hw], fun hph => by simp [hph],
            hrcfact.2, hrafact.2⟩
          · intro hnil
            have hx : extract_coordinates_from_url ([] : List Char)
                = .error .valueError := by decide
            rw [hnil, hx] at hco
            exact Except.noConfusion hco
          · by_cases hn : 1 ≤ n
            · exact ⟨it.ariaLabel.getD [], by rw [if_pos hn]⟩
            · exact ⟨[], by rw [if_neg hn]⟩

/-- Witness for C7 at `itemDefaults` (name and URL present, every other
source element absent): the record is `businessDefaults`, with address,
website, phone, review count and review average all defaulted to `""` and
`latitude = 12.5`, `longitude = -7.25`, `url` populated. -/
theorem record_invariant_and_defaults_witness :
    (businessDefaults.url = .str itemDefaults.url ∧ itemDefaults.url ≠ []) ∧
    ((∃ la, businessDefaults.latitude = .float la) ∧
      (∃ lo, businessDefaults.longitude = .float lo)) ∧
    ((∃ s, businessDefaults.name = .str s) ∧
      (∃ s, businessDefaults.address = .str s) ∧
      (∃ s, businessDefaults.website = .str s) ∧
      (∃ s, businessDefaults.phone_number = .str s)) ∧
    ((∃ z, businessDefaults.reviews_count = .int z) ∨
      businessDefaults.reviews_count = .str []) ∧
    ((∃ q, businessDefaults.reviews_average = .float q) ∨
      businessDefaults.reviews_average = .str []) ∧
    ((itemDefaults.addressText = none → businessDefaults.address = .str []) ∧
      (itemDefaults.websiteText = none → businessDefaults.website = .str []) ∧
      (itemDefaults.phoneText = none → businessDefaults.phone_number = .str []) ∧
      (itemDefaults.reviewCountText = none → businessDefaults.reviews_count = .str []) ∧
      (itemDefaults.reviewAvgLabel = none → businessDefaults.reviews_average = .str [])) :=
  record_invariant_and_defaults itemDefaults businessDefaults (by decide)

/-- C8: the per-item loop isolates faults: the batch is exactly the list of
successfully extracted records in original relative order (failed items
contribute nothing, not even a partial record), and exactly one error is
logged per failed item; instantiated at the spec's example of five handles
where the third raises (its `aria-label` is absent): four records, in
order, one logged error. -/
theorem per_item_fault_isolation (listings : List ItemPage) :
    (scrape_items listings).1 =
      listings.filterMap (fun it => (extract_item it).toOption) ∧
    (scrape_items listings).2 =
      (listings.filter (fun it => !(extract_item it).isOk)).length ∧
    (scrape_items [itemA, itemB, itemNoAria, itemD, itemE]).1 =
      [{ businessFull with name := .str "A".data },
       { businessFull with name := .str "B".data },
       { businessFull with name := .str "D".data },
       { businessFull with name := .str "E".data }] ∧
    (scrape_items [itemA, itemB, itemNoAria, itemD, itemE]).2 = 1 :=
  ⟨scrape_items_fst listings, scrape_items_snd listings, by decide, by decide⟩

/-- C9: the accessible-label text `"4,5 stars"` parses `reviews_average` to
`4.5` (leading token, decimal comma normalised to a period), and the
review-count text `"1,234 reviews"` parses `reviews_count` to the integer
`1234` (leading token, thousands separator removed). -/
theorem numeric_locale_normalization :
    parse_reviews_average (some "4,5 stars".data) = .ok (mkRat 45 10) ∧
    mkRat 45 10 = (45 : ℚ) / 10 ∧
    parse_reviews_count "1,234 reviews".data = .ok (1234 : ℤ) := by
  refine ⟨by decide, ?_, by decide⟩
  rw [Rat.mkRat_eq_divInt, Rat.divInt_eq_div]
  norm_num

/-- C10: the two termination branches return different kinds of handles —
a `TARGET_REACHED` result is the per-anchor parent mapping
(`locator("xpath=..")`, here `f`) of a truncated snapshot, while an
`EXHAUSTED` result is a raw snapshot, unmapped; hence the element whose
`aria-label` the extractor later reads depends on the terminating branch. -/
theorem branch_determines_handle_mapping {α : Type} (f : α → α)
    (t prev att : Nat) (doms : List (List α)) (hs : List α) :
    (discoveryLoop f t prev att doms = .exhausted hs →
      ∃ d ∈ doms, hs = d ∧ d.length < t) ∧
    (discoveryLoop f t prev att doms = .targetReached hs →
      ∃ d ∈ doms, hs = (d.take t).map f ∧ t ≤ d.length) :=
  loop_branch_shapes f t doms prev att hs

/-- Witness for C10: an exhausted run returning the raw 8-anchor snapshot,
and a target run returning the parent-mapped (`Nat.succ`) truncation. -/
theorem branch_determines_handle_mapping_witness :
    (∃ d ∈ [List.range 8], List.range 8 = d ∧ d.length < 1000000) ∧
    (∃ d ∈ [[5, 6, 7]], ([6, 7] : List Nat) = (d.take 2).map Nat.succ ∧ 2 ≤ d.length) :=
  ⟨(branch_determines_handle_mapping Nat.succ 1000000 8 2 [List.range 8]
      (List.range 8)).1 (by decide),
   (branch_determines_handle_mapping Nat.succ 2 0 0 [[5, 6, 7]] [6, 7]).2 (by decide)⟩
